import Mathlib

/-!
Shallow embedding of the core of the A/B OTA update engine
(system/update_engine): status serialization (`update_status_utils.cc`),
the Android CLI client (`aosp/update_engine_client_android.cc`), the
install plan record and its source action (`payload_consumer/install_plan.h`),
and the attempt coordinator surface declared in
`aosp/update_attempter_android.h`.

Machine integers are modelled as `Nat`/`Int`; strings as Lean `String`
(byte-transparent for the ASCII data handled here).  Library dependencies
(`brillo::KeyValueStore`, `base::SplitString`) are modelled from their
documented behavior, and coordinator internals whose implementation file is
not part of the sampled sources are modelled from the specification, each
with a doc comment saying so.
-/

/-- FSM states of the attempt coordinator, as enumerated by the exhaustive
switch in `UpdateStatusToString` (`update_status_utils.cc`). -/
inductive UpdateStatus where
  | IDLE
  | CHECKING_FOR_UPDATE
  | UPDATE_AVAILABLE
  | NEED_PERMISSION_TO_UPDATE
  | DOWNLOADING
  | VERIFYING
  | FINALIZING
  | UPDATED_NEED_REBOOT
  | REPORTING_ERROR_EVENT
  | ATTEMPTING_ROLLBACK
  | DISABLED
  | CLEANUP_PREVIOUS_UPDATE
deriving DecidableEq

/-- Key constant `kCurrentOp` from `update_status_utils.cc`. -/
def kCurrentOp : String := "CURRENT_OP"

/-- Key constant `kIsInstall` from `update_status_utils.cc`. -/
def kIsInstall : String := "IS_INSTALL"

/-- Key constant `kIsEnterpriseRollback` from `update_status_utils.cc`. -/
def kIsEnterpriseRollback : String := "IS_ENTERPRISE_ROLLBACK"

/-- Key constant `kLastCheckedTime` from `update_status_utils.cc`. -/
def kLastCheckedTime : String := "LAST_CHECKED_TIME"

/-- Key constant `kNewSize` from `update_status_utils.cc`. -/
def kNewSize : String := "NEW_SIZE"

/-- Key constant `kNewVersion` from `update_status_utils.cc`. -/
def kNewVersion : String := "NEW_VERSION"

/-- Key constant `kProgress` from `update_status_utils.cc`. -/
def kProgress : String := "PROGRESS"

/-- Key constant `kWillPowerwashAfterReboot` from `update_status_utils.cc`. -/
def kWillPowerwashAfterReboot : String := "WILL_POWERWASH_AFTER_REBOOT"

/-- The literal status strings of `update_status_utils.cc` and the switch in
`UpdateStatusToString` mapping each FSM state to its string. -/
def UpdateStatusToString : UpdateStatus → String
  | .IDLE => "UPDATE_STATUS_IDLE"
  | .CHECKING_FOR_UPDATE => "UPDATE_STATUS_CHECKING_FOR_UPDATE"
  | .UPDATE_AVAILABLE => "UPDATE_STATUS_UPDATE_AVAILABLE"
  | .NEED_PERMISSION_TO_UPDATE => "UPDATE_STATUS_NEED_PERMISSION_TO_UPDATE"
  | .DOWNLOADING => "UPDATE_STATUS_DOWNLOADING"
  | .VERIFYING => "UPDATE_STATUS_VERIFYING"
  | .FINALIZING => "UPDATE_STATUS_FINALIZING"
  | .UPDATED_NEED_REBOOT => "UPDATE_STATUS_UPDATED_NEED_REBOOT"
  | .REPORTING_ERROR_EVENT => "UPDATE_STATUS_REPORTING_ERROR_EVENT"
  | .ATTEMPTING_ROLLBACK => "UPDATE_STATUS_ATTEMPTING_ROLLBACK"
  | .DISABLED => "UPDATE_STATUS_DISABLED"
  | .CLEANUP_PREVIOUS_UPDATE => "UPDATE_STATUS_CLEANUP_PREVIOUS_UPDATE"

/-- Inverse of `UpdateStatusToString`, used by the parse direction of the
round-trip stated in the specification (§8): clients parse the
`CURRENT_OP` literal verbatim. -/
def stringToUpdateStatus (s : String) : Option UpdateStatus :=
  if s = "UPDATE_STATUS_IDLE" then some .IDLE
  else if s = "UPDATE_STATUS_CHECKING_FOR_UPDATE" then some .CHECKING_FOR_UPDATE
  else if s = "UPDATE_STATUS_UPDATE_AVAILABLE" then some .UPDATE_AVAILABLE
  else if s = "UPDATE_STATUS_NEED_PERMISSION_TO_UPDATE" then some .NEED_PERMISSION_TO_UPDATE
  else if s = "UPDATE_STATUS_DOWNLOADING" then some .DOWNLOADING
  else if s = "UPDATE_STATUS_VERIFYING" then some .VERIFYING
  else if s = "UPDATE_STATUS_FINALIZING" then some .FINALIZING
  else if s = "UPDATE_STATUS_UPDATED_NEED_REBOOT" then some .UPDATED_NEED_REBOOT
  else if s = "UPDATE_STATUS_REPORTING_ERROR_EVENT" then some .REPORTING_ERROR_EVENT
  else if s = "UPDATE_STATUS_ATTEMPTING_ROLLBACK" then some .ATTEMPTING_ROLLBACK
  else if s = "UPDATE_STATUS_DISABLED" then some .DISABLED
  else if s = "UPDATE_STATUS_CLEANUP_PREVIOUS_UPDATE" then some .CLEANUP_PREVIOUS_UPDATE
  else none

/-- Model of `brillo::KeyValueStore::SetString`: insert or overwrite a key.
The store is modelled as an association list in insertion order (brillo
keeps a `std::map`; no claim here depends on the emission order of lines,
and all keys written by this program are distinct). -/
def kvSet : List (String × String) → String → String → List (String × String)
  | [], key, value => [(key, value)]
  | (k, v) :: rest, key, value =>
    if k = key then (key, value) :: rest else (k, v) :: kvSet rest key value

/-- Model of `brillo::KeyValueStore::SetBoolean`: stores `"true"`/`"false"`. -/
def kvSetBoolean (store : List (String × String)) (key : String) (b : Bool) :
    List (String × String) :=
  kvSet store key (if b then "true" else "false")

/-- Model of `brillo::KeyValueStore::GetString`: lookup by key. -/
def kvGet : List (String × String) → String → Option String
  | [], _ => none
  | (k, v) :: rest, key => if k = key then some v else kvGet rest key

/-- One serialized line of `brillo::KeyValueStore::SaveToString`:
`KEY=VALUE` followed by a newline. -/
def kvLine (kv : String × String) : List Char :=
  kv.1.data ++ '=' :: (kv.2.data ++ ['\n'])

/-- Model of `brillo::KeyValueStore::SaveToString`: one `KEY=VALUE` line per
stored pair. -/
def SaveToString (store : List (String × String)) : String :=
  ⟨(store.map kvLine).flatten⟩

/-- Splitting a character list at every occurrence of `sep`, keeping empty
pieces: the piece-collection loop of `base::SplitString`. -/
def splitPiecesAux (sep : Char) : List Char → List (List Char)
  | [] => [[]]
  | c :: cs =>
    if c = sep then [] :: splitPiecesAux sep cs
    else
      match splitPiecesAux sep cs with
      | [] => [[c]]
      | p :: ps => (c :: p) :: ps

/-- ASCII whitespace trimming of both ends (`base::TRIM_WHITESPACE`). -/
def trimWS (l : List Char) : List Char :=
  ((l.dropWhile Char.isWhitespace).reverse.dropWhile Char.isWhitespace).reverse

/-- Model of `base::SplitString(input, sep, whitespace, result_type)` for a
single separator character: `keepWhitespace = true` is `base::KEEP_WHITESPACE`
(else `TRIM_WHITESPACE`), `wantAll = true` is `base::SPLIT_WANT_ALL`
(else `SPLIT_WANT_NONEMPTY`, which drops empty pieces). -/
def SplitString (input : String) (sep : Char) (keepWhitespace wantAll : Bool) :
    List String :=
  (((splitPiecesAux sep input.data).map
      (fun p => if keepWhitespace then p else trimWS p)).filter
    (fun p => wantAll || !p.isEmpty)).map (fun p => String.mk p)

/-- Embedding of `UpdateEngineClientAndroid::ParseHeaders`
(`update_engine_client_android.cc:348`): `base::SplitString` on `"\n"` with
`KEEP_WHITESPACE` and `SPLIT_WANT_NONEMPTY`.  The `android::String16`
conversion is content-preserving and is modelled as the identity. -/
def ParseHeaders (arg : String) : List String :=
  SplitString arg '\n' true false

/-- Leading ASCII whitespace trim (`base::TRIM_LEADING`), applied by
`brillo::KeyValueStore` to each loaded line. -/
def trimLeading (l : List Char) : List Char :=
  l.dropWhile Char.isWhitespace

/-- Splitting a loaded line at its first `=`: key before, value after;
fails when the line has no `=`. -/
def splitKeyValue (line : List Char) : Option (String × String) :=
  match line.dropWhile (fun c => c != '=') with
  | [] => none
  | _ :: v => some (⟨line.takeWhile (fun c => c != '=')⟩, ⟨v⟩)

/-- Line loop of `brillo::KeyValueStore::LoadFromString`: skip blank lines
and comment lines starting with `#`, split every other line at its first
`=`, fail when a line has none.  A value ending in a backslash is a line
continuation: the backslash is popped and the next raw line is appended
(failing when no line is left), repeatedly while the value still ends in a
backslash.  The `pending` argument carries the key and partial value of a
continuation in progress, mirroring the `while` loop over the line
iterator in the C++ source. -/
def loadLinesAux : List (List Char) → Option (String × List Char) →
    List (String × String) → Option (List (String × String))
  | [], none, store => some store
  | [], some _, _ => none
  | line :: rest, some (key, partialValue), store =>
    let v := partialValue ++ line
    if v.getLast? = some '\\' then
      loadLinesAux rest (some (key, v.dropLast)) store
    else loadLinesAux rest none (kvSet store key ⟨v⟩)
  | line :: rest, none, store =>
    match trimLeading line with
    | [] => loadLinesAux rest none store
    | c :: cs =>
      if c = '#' then loadLinesAux rest none store
      else
        match splitKeyValue (c :: cs) with
        | none => none
        | some (k, v) =>
          if v.data.getLast? = some '\\' then
            loadLinesAux rest (some (k, v.data.dropLast)) store
          else loadLinesAux rest none (kvSet store k v)

/-- Model of `brillo::KeyValueStore::LoadFromString`: split the blob into
lines (`base::SplitString` with `KEEP_WHITESPACE`, `SPLIT_WANT_ALL`) and load
each line, honoring backslash line continuations. -/
def LoadFromString (data : String) : Option (List (String × String)) :=
  loadLinesAux (splitPiecesAux '\n' data.data) none []

/-- Decimal digit character for a digit below ten. -/
def digitChar : Nat → Char
  | 0 => '0'
  | 1 => '1'
  | 2 => '2'
  | 3 => '3'
  | 4 => '4'
  | 5 => '5'
  | 6 => '6'
  | 7 => '7'
  | 8 => '8'
  | _ => '9'

/-- Numeric value of a decimal digit character. -/
def charDigit (c : Char) : Option Nat :=
  if '0' ≤ c ∧ c ≤ '9' then some (c.toNat - 48) else none

/-- Most-significant-first decimal digits of a positive number; `fuel` bounds
the recursion and any `fuel ≥ n` is exact. -/
def natToDigitsAux : Nat → Nat → List Char
  | 0, _ => []
  | fuel + 1, n =>
    if n = 0 then [] else natToDigitsAux fuel (n / 10) ++ [digitChar (n % 10)]

/-- Decimal rendering of a `Nat`, as produced for the unsigned fields by
`std::format` in `UpdateEngineStatusToString`. -/
def encodeNat (n : Nat) : String :=
  if n = 0 then "0" else ⟨natToDigitsAux n n⟩

/-- Decimal rendering of an `Int` (sign then digits), as produced for
`last_checked_time` by `std::format`. -/
def encodeInt (i : Int) : String :=
  if i < 0 then "-" ++ encodeNat i.natAbs else encodeNat i.natAbs

/-- Accumulator loop for decimal parsing. -/
def decodeNatAux : List Char → Nat → Option Nat
  | [], acc => some acc
  | c :: cs, acc =>
    match charDigit c with
    | some d => decodeNatAux cs (acc * 10 + d)
    | none => none

/-- Decimal parsing of a `Nat` from a nonempty all-digit string. -/
def decodeNat (s : String) : Option Nat :=
  match s.data with
  | [] => none
  | _ :: _ => decodeNatAux s.data 0

/-- Decimal parsing of an `Int`: optional leading minus sign then digits. -/
def decodeInt (s : String) : Option Int :=
  match s.data with
  | [] => none
  | c :: rest =>
    if c = '-' then (decodeNat ⟨rest⟩).map (fun n : Nat => -(n : Int))
    else (decodeNat s).map (fun n : Nat => (n : Int))

/-- Parsing of the `"true"`/`"false"` values written by
`brillo::KeyValueStore::SetBoolean`. -/
def decodeBool (s : String) : Option Bool :=
  if s = "true" then some true else if s = "false" then some false else none

/-- The status snapshot serialized by `UpdateEngineStatusToString`
(`update_status_utils.cc:96`).  `progress` is a C++ `double`; it is modelled
here by its `std::format` decimal rendering, which is injective on doubles
(shortest round-trip representation), so recovering the rendering recovers
the field. -/
structure UpdateEngineStatus where
  last_checked_time : Int
  progress : String
  new_size_bytes : Nat
  status : UpdateStatus
  new_version : String
  is_enterprise_rollback : Bool
  is_install : Bool
  will_powerwash_after_reboot : Bool
deriving DecidableEq

/-- The key/value store built by `UpdateEngineStatusToString`
(`update_status_utils.cc:96-112`), one `Set` call per field in source
order. -/
def statusKeyValueStore (st : UpdateEngineStatus) : List (String × String) :=
  let s := kvSet [] kLastCheckedTime (encodeInt st.last_checked_time)
  let s := kvSet s kProgress st.progress
  let s := kvSet s kNewSize (encodeNat st.new_size_bytes)
  let s := kvSet s kCurrentOp (UpdateStatusToString st.status)
  let s := kvSet s kNewVersion st.new_version
  let s := kvSetBoolean s kIsEnterpriseRollback st.is_enterprise_rollback
  let s := kvSetBoolean s kIsInstall st.is_install
  let s := kvSetBoolean s kWillPowerwashAfterReboot st.will_powerwash_after_reboot
  s

/-- Embedding of `UpdateEngineStatusToString`: build the key/value store and
serialize it. -/
def UpdateEngineStatusToString (st : UpdateEngineStatus) : String :=
  SaveToString (statusKeyValueStore st)

/-- Parse direction of the round-trip stated in the specification (§8):
load the key/value blob, look up every exported key and decode each field. -/
def parseUpdateEngineStatus (blob : String) : Option UpdateEngineStatus :=
  match LoadFromString blob with
  | none => none
  | some store =>
    match kvGet store kLastCheckedTime, kvGet store kProgress,
        kvGet store kNewSize, kvGet store kCurrentOp, kvGet store kNewVersion,
        kvGet store kIsEnterpriseRollback, kvGet store kIsInstall,
        kvGet store kWillPowerwashAfterReboot with
    | some lct, some pr, some ns, some op, some nv, some ier, some ii, some wp =>
      match decodeInt lct, decodeNat ns, stringToUpdateStatus op,
          decodeBool ier, decodeBool ii, decodeBool wp with
      | some t, some sz, some s, some b1, some b2, some b3 =>
        some { last_checked_time := t, progress := pr, new_size_bytes := sz,
               status := s, new_version := nv, is_enterprise_rollback := b1,
               is_install := b2, will_powerwash_after_reboot := b3 }
      | _, _, _, _, _, _ => none
    | _, _, _, _, _, _, _, _ => none

/-- Payload type tag (`install_plan.h:33`). -/
inductive InstallPayloadType where
  | kUnknown
  | kFull
  | kDelta
deriving DecidableEq

/-- Sentinel `BootControlInterface::kInvalidSlot`.  The interface header is
not among the sampled sources; the sentinel is modelled as the largest
32-bit value, matching its role as an always-invalid slot number. -/
def kInvalidSlot : Nat := 4294967295

/-- One payload entry of the install plan (`install_plan.h:81-103`).
`brillo::Blob` (a byte vector) is modelled as `List Nat`. -/
structure InstallPlan.Payload where
  payload_urls : List String := []
  size : Nat := 0
  metadata_size : Nat := 0
  metadata_signature : String := ""
  hash : List Nat := []
  type : InstallPayloadType := .kUnknown
  fp : String := ""
  app_id : String := ""
  already_applied : Bool := false
deriving DecidableEq

/-- One partition descriptor of the install plan (`install_plan.h:117-163`). -/
structure InstallPlan.Partition where
  name : String := ""
  source_path : String := ""
  source_size : Nat := 0
  source_hash : List Nat := []
  target_path : String := ""
  readonly_target_path : String := ""
  target_size : Nat := 0
  target_hash : List Nat := []
  block_size : Nat := 0
  run_postinstall : Bool := false
  postinstall_path : String := ""
  filesystem_type : String := ""
  postinstall_optional : Bool := false
  hash_tree_data_offset : Nat := 0
  hash_tree_data_size : Nat := 0
  hash_tree_offset : Nat := 0
  hash_tree_size : Nat := 0
  hash_tree_algorithm : String := ""
  hash_tree_salt : List Nat := []
  fec_data_offset : Nat := 0
  fec_data_size : Nat := 0
  fec_offset : Nat := 0
  fec_size : Nat := 0
  fec_roots : Nat := 0
deriving DecidableEq

/-- The install plan record (`install_plan.h:41-202`).  Every field default
mirrors the C++ member initializer (value-initialization for fields without
an explicit one). -/
structure InstallPlan where
  is_resume : Bool := false
  vabc_none : Bool := false
  disable_vabc : Bool := false
  download_url : String := ""
  version : String := ""
  payloads : List InstallPlan.Payload := []
  source_slot : Nat := kInvalidSlot
  target_slot : Nat := kInvalidSlot
  partitions : List InstallPlan.Partition := []
  hash_checks_mandatory : Bool := false
  powerwash_required : Bool := false
  spl_downgrade : Bool := false
  switch_slot_on_reboot : Bool := true
  run_post_install : Bool := true
  write_verity : Bool := true
  public_key_rsa : String := ""
  untouched_dynamic_partitions : List String := []
  batched_writes : Bool := false
  enable_threading : Option Bool := none
deriving DecidableEq

/-- Error codes referenced by the sampled sources.  The full enumeration
lives in `common/error_code.h`, which is not among the sampled sources; only
the constructors used here are modelled. -/
inductive ErrorCode where
  | kSuccess
  | kError
  | kUserCancelled
  | kUpdatedButNotActive
deriving DecidableEq

/-- Embedding of `InstallPlanAction::PerformAction` (`install_plan.h:224-229`):
the action posts its stored plan to the output pipe when one is attached
(`SetOutputObject`) and always completes with `ErrorCode::kSuccess`.  The
observable outcome is modelled as the pair (output-pipe content, completion
code). -/
def InstallPlanAction.PerformAction (hasOutputPipe : Bool)
    (install_plan : InstallPlan) : Option InstallPlan × ErrorCode :=
  ((if hasOutputPipe then some install_plan else none), ErrorCode.kSuccess)

/-- Result classification of a previous OTA attempt
(`update_attempter_android.h:48-53`). -/
inductive OTAResult where
  | NOT_ATTEMPTED
  | ROLLED_BACK
  | UPDATED_NEED_REBOOT
  | OTA_SUCCESSFUL
deriving DecidableEq

/-- Modelled from the spec: `UpdateAttempterAndroid::GetOTAUpdateResult`
(declared at `update_attempter_android.h:132`; its implementation file is
not among the sampled sources).  Per §4.1: on restart, an existing
`update_completed_marker` with the active slot equal to the target slot of
the last attempt means the update is staged (`UPDATED_NEED_REBOOT`); an
active slot equal to the old source slot means the attempt was rolled back;
no marker means no attempt was recorded. -/
def GetOTAUpdateResult (markerExists : Bool)
    (activeSlot targetSlot sourceSlot : Nat) : OTAResult :=
  if ¬ markerExists then .NOT_ATTEMPTED
  else if activeSlot = targetSlot then .UPDATED_NEED_REBOOT
  else if activeSlot = sourceSlot then .ROLLED_BACK
  else .OTA_SUCCESSFUL

/-- Modelled from the spec: the status the coordinator reports on restart
(§4.1): `UPDATED_NEED_REBOOT` when the completed marker exists and the
active slot is the target slot of the last attempt, `IDLE` otherwise. -/
def reportedStatusAfterRestart (markerExists : Bool)
    (activeSlot targetSlot : Nat) : UpdateStatus :=
  if markerExists ∧ activeSlot = targetSlot then .UPDATED_NEED_REBOOT
  else .IDLE

/-- Modelled from the spec: `UpdateAttempterAndroid::AllocateSpaceForPayload`
(declared at `update_attempter_android.h:92`; its implementation file is not
among the sampled sources).  Per §4.1 it requires state `IDLE` and returns 0
on success, else the byte shortfall; the space check is abstracted by the
free and required byte counts. -/
def AllocateSpaceForPayload (state : UpdateStatus)
    (requiredBytes freeBytes : Nat) : Option Nat :=
  if state = .IDLE then some (requiredBytes - freeBytes) else none

/-- One status-notification opportunity: the monotonic clock reading, the
wall clock reading, the progress value, and whether this is a state change
(state changes are always delivered). -/
structure StatusSample where
  mono : Nat
  wall : Int
  progress : Nat
  stateChange : Bool
deriving DecidableEq

/-- Modelled from the spec: the throttling decision for one notification
(§4.1 and the comment at `update_attempter_android.h:257-260`): the stored
timestamp `last_notify_time_` is a monotonic `base::TimeTicks`, so the
decision reads `s.mono`, never `s.wall`; progress deltas below the
thresholds are suppressed between state changes. -/
def throttleStep (threshold delta lastNotify lastProgress : Nat)
    (s : StatusSample) : Bool :=
  s.stateChange || (decide (threshold ≤ s.mono - lastNotify) &&
    decide (delta ≤ s.progress - lastProgress))

/-- Modelled from the spec: the sequence of progress notifications delivered
to observers over a run, threading the last-notify monotonic timestamp and
the last notified progress. -/
def runNotifications (threshold delta : Nat) :
    Nat → Nat → List StatusSample → List Nat
  | _, _, [] => []
  | lastNotify, lastProgress, s :: rest =>
    if throttleStep threshold delta lastNotify lastProgress s then
      s.progress :: runNotifications threshold delta s.mono s.progress rest
    else
      runNotifications threshold delta lastNotify lastProgress rest

/-- The wall-clock-independent part of a notification opportunity. -/
def StatusSample.strip (s : StatusSample) : Nat × Nat × Bool :=
  (s.mono, s.progress, s.stateChange)

/-- Exit code `EX_OK` from `sysexits.h`. -/
def EX_OK : Nat := 0

/-- Exit code delivered by
`UpdateEngineClientAndroid::UECallback::onPayloadApplicationComplete`
(`update_engine_client_android.cc:101-111`): `EX_OK` when the terminal code
is `ErrorCode::kSuccess` or `ErrorCode::kUpdatedButNotActive`, else 1.  The
callback receives the code as an integer; the numeric values `kSuccess = 0`
and `kUpdatedButNotActive = 52` are from the spec (§6.1), `error_code.h` not
being among the sampled sources. -/
def onPayloadApplicationCompleteExitCode (error_code : Nat) : Nat :=
  if error_code = 0 ∨ error_code = 52 then EX_OK else 1

/-- Early argument validation of `UpdateEngineClientAndroid::OnInit`
(`update_engine_client_android.cc:181-194`): an invocation with no
arguments (`argc == 1`) returns 1, and so does an invocation carrying a
positional argument; `none` means the validation passed. -/
def onInitArgCheck (argc : Nat) (positionalArgs : List String) : Option Nat :=
  if argc = 1 then some 1
  else if positionalArgs ≠ [] then some 1
  else none

/-- Embedding of `UpdateEngineClientAndroid::ExitWhenIdle(const Status&)`
(`update_engine_client_android.cc:328-333`): an ok status exits `EX_OK`,
otherwise the binder exception code is used as the exit code. -/
def ExitWhenIdleStatus (isOk : Bool) (exceptionCode : Nat) : Nat :=
  if isOk then EX_OK else exceptionCode

/-- Decoding inverts the digit table for digits below ten. -/
theorem charDigit_digitChar (d : Nat) (h : d < 10) :
    charDigit (digitChar d) = some d := by
  interval_cases d <;> decide

/-- Every character produced by `digitChar` lies between `0` and `9`. -/
theorem digitChar_range (d : Nat) :
    '0' ≤ digitChar d ∧ digitChar d ≤ '9' := by
  unfold digitChar
  split <;> decide

/-- A character in the decimal digit range is not a newline, an equals
sign, a hash or whitespace. -/
theorem digit_char_benign (c : Char) (h1 : '0' ≤ c) (h2 : c ≤ '9') :
    c ≠ '\n' ∧ c ≠ '=' ∧ c.isWhitespace = false ∧ c ≠ '#' := by
  refine ⟨?_, ?_, ?_, ?_⟩
  · intro he; rw [he] at h1; exact absurd h1 (by decide)
  · intro he; rw [he] at h2; exact absurd h2 (by decide)
  · have hs : c ≠ ' ' := fun he => by rw [he] at h1; exact absurd h1 (by decide)
    have ht : c ≠ '\t' := fun he => by rw [he] at h1; exact absurd h1 (by decide)
    have hr : c ≠ '\r' := fun he => by rw [he] at h1; exact absurd h1 (by decide)
    have hn : c ≠ '\n' := fun he => by rw [he] at h1; exact absurd h1 (by decide)
    simp [Char.isWhitespace, hs, ht, hr, hn]
  · intro he; rw [he] at h1; exact absurd h1 (by decide)

/-- Decoding a concatenation runs the accumulator through the first part
then the second. -/
theorem decodeNatAux_append (xs ys : List Char) (acc : Nat) :
    decodeNatAux (xs ++ ys) acc =
      match decodeNatAux xs acc with
      | some m => decodeNatAux ys m
      | none => none := by
  induction xs generalizing acc with
  | nil => rfl
  | cons c cs ih =>
    simp only [List.cons_append, decodeNatAux]
    cases charDigit c with
    | none => rfl
    | some d => exact ih _

/-- Decoding the digits of `n` adds `n` to the shifted accumulator. -/
theorem decodeNatAux_natToDigitsAux (fuel : Nat) :
    ∀ n, n ≤ fuel → ∃ k, ∀ acc,
      decodeNatAux (natToDigitsAux fuel n) acc = some (acc * 10 ^ k + n) := by
  induction fuel with
  | zero =>
    intro n hn
    refine ⟨0, fun acc => ?_⟩
    have h0 : n = 0 := Nat.le_zero.mp hn
    subst h0
    simp [natToDigitsAux, decodeNatAux]
  | succ fuel ih =>
    intro n hn
    by_cases h0 : n = 0
    · subst h0
      refine ⟨0, fun acc => ?_⟩
      simp [natToDigitsAux, decodeNatAux]
    · obtain ⟨k, hk⟩ := ih (n / 10) (by omega)
      refine ⟨k + 1, fun acc => ?_⟩
      rw [natToDigitsAux, if_neg h0, decodeNatAux_append, hk acc]
      simp only [decodeNatAux, charDigit_digitChar (n % 10) (by omega)]
      congr 1
      calc (acc * 10 ^ k + n / 10) * 10 + n % 10
          = acc * (10 ^ k * 10) + (10 * (n / 10) + n % 10) := by ring
        _ = acc * 10 ^ (k + 1) + n := by rw [Nat.div_add_mod, pow_succ]

/-- Decimal decoding inverts decimal encoding on `Nat`. -/
theorem decodeNat_encodeNat (n : Nat) : decodeNat (encodeNat n) = some n := by
  by_cases h0 : n = 0
  · subst h0; decide
  · obtain ⟨k, hk⟩ := decodeNatAux_natToDigitsAux n n le_rfl
    have hne : natToDigitsAux n n ≠ [] := by
      cases hfuel : n with
      | zero => exact absurd hfuel h0
      | succ m =>
        simp only [natToDigitsAux]
        rw [if_neg (hfuel ▸ h0)]
        simp
    unfold decodeNat encodeNat
    rw [if_neg h0]
    rcases hd : natToDigitsAux n n with _ | ⟨c, cs⟩
    · exact absurd hd hne
    · have := hk 0
      rw [hd] at this
      simpa using this

/-- Every character of `encodeNat` output is a decimal digit. -/
theorem encodeNat_chars (n : Nat) :
    ∀ c ∈ (encodeNat n).data, '0' ≤ c ∧ c ≤ '9' := by
  have haux : ∀ fuel m c, c ∈ natToDigitsAux fuel m → '0' ≤ c ∧ c ≤ '9' := by
    intro fuel
    induction fuel with
    | zero => intro m c hc; simp [natToDigitsAux] at hc
    | succ fuel ih =>
      intro m c hc
      simp only [natToDigitsAux] at hc
      by_cases h0 : m = 0
      · rw [if_pos h0] at hc; simp at hc
      · rw [if_neg h0] at hc
        rcases List.mem_append.mp hc with h | h
        · exact ih _ _ h
        · have : c = digitChar (m % 10) := by simpa using h
          rw [this]; exact digitChar_range _
  intro c hc
  unfold encodeNat at hc
  by_cases h0 : n = 0
  · rw [if_pos h0] at hc
    have : c = '0' := by simpa using hc
    rw [this]; exact ⟨le_rfl, by decide⟩
  · rw [if_neg h0] at hc
    exact haux n n c hc

/-- Every character of `encodeInt` output is a minus sign or a digit. -/
theorem encodeInt_chars (i : Int) :
    ∀ c ∈ (encodeInt i).data, c = '-' ∨ ('0' ≤ c ∧ c ≤ '9') := by
  intro c hc
  unfold encodeInt at hc
  by_cases hneg : i < 0
  · rw [if_pos hneg] at hc
    rw [String.data_append] at hc
    rcases List.mem_append.mp hc with h | h
    · left; simpa using h
    · right; exact encodeNat_chars _ c h
  · rw [if_neg hneg] at hc
    right; exact encodeNat_chars _ c hc

/-- Digit lists produced with fuel equal to a positive number are nonempty. -/
theorem natToDigitsAux_self_ne_nil (n : Nat) (h : n ≠ 0) :
    natToDigitsAux n n ≠ [] := by
  cases n with
  | zero => exact absurd rfl h
  | succ m =>
    simp only [natToDigitsAux]
    rw [if_neg h]
    simp

/-- Encoded naturals are nonempty strings. -/
theorem encodeNat_data_ne_nil (n : Nat) : (encodeNat n).data ≠ [] := by
  unfold encodeNat
  by_cases h0 : n = 0
  · rw [if_pos h0]; decide
  · rw [if_neg h0]; exact natToDigitsAux_self_ne_nil n h0

/-- Unfolding equation for `decodeInt` on a string with a known first
character. -/
theorem decodeInt_data_eq (s : String) (c : Char) (rest : List Char)
    (h : s.data = c :: rest) :
    decodeInt s =
      if c = '-' then (decodeNat ⟨rest⟩).map (fun n : Nat => -(n : Int))
      else (decodeNat s).map (fun n : Nat => (n : Int)) := by
  unfold decodeInt
  rw [h]

/-- Decimal decoding inverts decimal encoding on `Int`. -/
theorem decodeInt_encodeInt (i : Int) : decodeInt (encodeInt i) = some i := by
  by_cases hneg : i < 0
  · have hdata : (encodeInt i).data = '-' :: (encodeNat i.natAbs).data := by
      unfold encodeInt
      rw [if_pos hneg, String.data_append]
      rfl
    rw [decodeInt_data_eq _ _ _ hdata, if_pos rfl]
    have heta : (⟨(encodeNat i.natAbs).data⟩ : String) = encodeNat i.natAbs := rfl
    rw [heta, decodeNat_encodeNat]
    simp only [Option.map_some']
    congr 1
    omega
  · have henc : encodeInt i = encodeNat i.natAbs := by
      unfold encodeInt
      rw [if_neg hneg]
    rcases hd : (encodeInt i).data with _ | ⟨c, cs⟩
    · exfalso
      rw [henc] at hd
      exact encodeNat_data_ne_nil _ hd
    · have hcne : c ≠ '-' := by
        have hmem : c ∈ (encodeInt i).data := hd ▸ List.mem_cons_self c cs
        rw [henc] at hmem
        have hrange := encodeNat_chars _ c hmem
        intro he
        rw [he] at hrange
        exact absurd hrange.1 (by decide)
      rw [decodeInt_data_eq _ _ _ hd, if_neg hcne, henc, decodeNat_encodeNat]
      simp only [Option.map_some']
      congr 1
      omega

/-- The piece list of a split is never empty. -/
theorem splitPiecesAux_ne_nil (sep : Char) (cs : List Char) :
    splitPiecesAux sep cs ≠ [] := by
  induction cs with
  | nil => simp [splitPiecesAux]
  | cons c cs ih =>
    simp only [splitPiecesAux]
    by_cases h : c = sep
    · rw [if_pos h]; simp
    · rw [if_neg h]
      rcases hs : splitPiecesAux sep cs with _ | ⟨p, ps⟩
      · simp
      · simp

/-- Splitting a list that starts with a separator-free run followed by a
separator yields that run as the first piece. -/
theorem splitPiecesAux_run (sep : Char) (a rest : List Char)
    (ha : sep ∉ a) :
    splitPiecesAux sep (a ++ sep :: rest) = a :: splitPiecesAux sep rest := by
  induction a with
  | nil =>
    simp [List.nil_append, splitPiecesAux]
  | cons c a ih =>
    have hc : c ≠ sep := fun h => ha (h ▸ List.mem_cons_self c a)
    have ha' : sep ∉ a := fun h => ha (List.mem_cons_of_mem c h)
    simp only [List.cons_append, splitPiecesAux, if_neg hc, List.append_eq,
      ih ha']

/-- Splitting a separator-free list yields a single piece. -/
theorem splitPiecesAux_no_sep (sep : Char) (cs : List Char)
    (h : sep ∉ cs) : splitPiecesAux sep cs = [cs] := by
  induction cs with
  | nil => rfl
  | cons c cs ih =>
    have hc : c ≠ sep := fun he => h (he ▸ List.mem_cons_self c cs)
    have h' : sep ∉ cs := fun he => h (List.mem_cons_of_mem c he)
    simp only [splitPiecesAux, if_neg hc, ih h']

/-- The split model agrees with the library function `List.splitOnP`. -/
theorem splitPiecesAux_eq_splitOnP (sep : Char) (cs : List Char) :
    splitPiecesAux sep cs = List.splitOnP (fun c => c == sep) cs := by
  induction cs with
  | nil => simp [splitPiecesAux, List.splitOnP_nil]
  | cons c cs ih =>
    rw [List.splitOnP_cons]
    by_cases h : c = sep
    · simp only [splitPiecesAux, if_pos h, ih]
      rw [if_pos (by simp [h])]
    · simp only [splitPiecesAux, if_neg h, ih]
      rw [if_neg (by simp [h])]
      rcases hs : List.splitOnP (fun c => c == sep) cs with _ | ⟨p, ps⟩
      · exact absurd (ih.trans hs) (splitPiecesAux_ne_nil sep cs)
      · rfl

/-- Characters of any piece of a split come from the input and exclude the
separator. -/
theorem splitPiecesAux_pieces_no_sep (sep : Char) (cs : List Char) :
    ∀ p ∈ splitPiecesAux sep cs, sep ∉ p := by
  induction cs with
  | nil =>
    intro p hp
    simp [splitPiecesAux] at hp
    simp [hp]
  | cons c cs ih =>
    intro p hp
    simp only [splitPiecesAux] at hp
    by_cases h : c = sep
    · rw [if_pos h] at hp
      rcases List.mem_cons.mp hp with h1 | h1
      · simp [h1]
      · exact ih p h1
    · rw [if_neg h] at hp
      rcases hs : splitPiecesAux sep cs with _ | ⟨q, qs⟩
      · exact absurd hs (splitPiecesAux_ne_nil sep cs)
      · rw [hs] at hp
        rcases List.mem_cons.mp hp with h1 | h1
        · subst h1
          intro hmem
          rcases List.mem_cons.mp hmem with h2 | h2
          · exact h h2.symm
          · exact ih q (hs ▸ List.mem_cons_self q qs) h2
        · exact ih p (hs ▸ List.mem_cons_of_mem q h1)

/-- Taking up to a marker character: the separator-free run before it is
taken whole. -/
theorem takeWhile_run (p : Char → Bool) (k : List Char) (x : Char)
    (v : List Char) (hk : ∀ c ∈ k, p c = true) (hx : p x = false) :
    (k ++ x :: v).takeWhile p = k := by
  induction k with
  | nil => simp [List.takeWhile, hx]
  | cons c k ih =>
    have hc : p c = true := hk c (List.mem_cons_self c k)
    have hk' : ∀ c ∈ k, p c = true := fun c hc => hk c (List.mem_cons_of_mem _ hc)
    simp [List.takeWhile, hc, ih hk']

/-- Dropping up to a marker character: everything from the marker stays. -/
theorem dropWhile_run (p : Char → Bool) (k : List Char) (x : Char)
    (v : List Char) (hk : ∀ c ∈ k, p c = true) (hx : p x = false) :
    (k ++ x :: v).dropWhile p = x :: v := by
  induction k with
  | nil => simp [List.dropWhile, hx]
  | cons c k ih =>
    have hc : p c = true := hk c (List.mem_cons_self c k)
    have hk' : ∀ c ∈ k, p c = true := fun c hc => hk c (List.mem_cons_of_mem _ hc)
    simp [List.dropWhile, hc, ih hk']

/-- Splitting the serialized store on newlines yields one body per stored
pair (key, equals sign, value) plus a final empty piece. -/
theorem splitPiecesAux_kvLines (store : List (String × String))
    (hk : ∀ kv ∈ store, ∀ c ∈ kv.1.data, c ≠ '\n')
    (hv : ∀ kv ∈ store, ∀ c ∈ kv.2.data, c ≠ '\n') :
    splitPiecesAux '\n' ((store.map kvLine).flatten) =
      (store.map (fun kv => kv.1.data ++ '=' :: kv.2.data)) ++ [[]] := by
  induction store with
  | nil => rfl
  | cons kv rest ih =>
    simp only [List.map_cons, List.flatten_cons]
    have hrearrange : kvLine kv ++ (rest.map kvLine).flatten =
        (kv.1.data ++ '=' :: kv.2.data) ++ '\n' :: (rest.map kvLine).flatten := by
      simp [kvLine]
    rw [hrearrange, splitPiecesAux_run]
    · rw [ih (fun kv h => hk kv (List.mem_cons_of_mem _ h))
        (fun kv h => hv kv (List.mem_cons_of_mem _ h))]
      simp
    · intro hmem
      rcases List.mem_append.mp hmem with h | h
      · exact hk kv (List.mem_cons_self _ _) '\n' h rfl
      · rcases List.mem_cons.mp h with h | h
        · exact absurd h (by decide)
        · exact hv kv (List.mem_cons_self _ _) '\n' h rfl

/-- Loading the line bodies of a serialized store inserts every pair in
order, provided no value ends in a continuation backslash. -/
theorem loadLinesAux_kvLines (store : List (String × String)) :
    ∀ acc,
    (∀ kv ∈ store, kv.1.data ≠ [] ∧
      (∀ c ∈ kv.1.data, c.isWhitespace = false ∧ c ≠ '#' ∧ c ≠ '=') ∧
      kv.2.data.getLast? ≠ some '\\') →
    loadLinesAux
        ((store.map (fun kv => kv.1.data ++ '=' :: kv.2.data)) ++ [[]])
        none acc =
      some (store.foldl (fun a kv => kvSet a kv.1 kv.2) acc) := by
  induction store with
  | nil => intro acc _; rfl
  | cons kv rest ih =>
    intro acc hk
    obtain ⟨hne, hchars, hvb⟩ := hk kv (List.mem_cons_self _ _)
    rcases hkd : kv.1.data with _ | ⟨c, k'⟩
    · exact absurd hkd hne
    obtain ⟨hcw, hch, _⟩ := hchars c (hkd ▸ List.mem_cons_self _ _)
    have hall : ∀ x ∈ kv.1.data, (x != '=') = true := by
      intro x hx
      have hxe := (hchars x hx).2.2
      simpa using hxe
    have hsplit : splitKeyValue (kv.1.data ++ '=' :: kv.2.data) =
        some (kv.1, kv.2) := by
      unfold splitKeyValue
      rw [dropWhile_run _ _ _ _ hall (by simp),
        takeWhile_run _ _ _ _ hall (by simp)]
    have htrim : trimLeading (kv.1.data ++ '=' :: kv.2.data) =
        kv.1.data ++ '=' :: kv.2.data := by
      rw [hkd]
      simp only [trimLeading, List.cons_append, List.dropWhile_cons, hcw]
      simp
    simp only [List.map_cons, List.cons_append, loadLinesAux, List.foldl_cons]
    rw [htrim]
    rw [hkd]
    simp only [List.cons_append]
    rw [if_neg hch]
    have hsplit' : splitKeyValue (c :: (k' ++ '=' :: kv.2.data)) =
        some (kv.1, kv.2) := by
      rw [← List.cons_append, ← hkd]
      exact hsplit
    simp only [hsplit']
    rw [if_neg hvb]
    exact ih (kvSet acc kv.1 kv.2) (fun kv h => hk kv (List.mem_cons_of_mem _ h))

/-- Inserting a fresh key appends it to the store. -/
theorem kvSet_not_mem_append (acc : List (String × String)) (key value : String)
    (h : ∀ kv ∈ acc, kv.1 ≠ key) :
    kvSet acc key value = acc ++ [(key, value)] := by
  induction acc with
  | nil => rfl
  | cons kv rest ih =>
    have h1 : kv.1 ≠ key := h kv (List.mem_cons_self _ _)
    simp only [kvSet, if_neg h1, List.cons_append]
    rw [ih (fun kv hkv => h kv (List.mem_cons_of_mem _ hkv))]

/-- Folding insertions of pairs with distinct fresh keys appends them all. -/
theorem foldl_kvSet_append (store : List (String × String)) :
    ∀ acc, (store.map Prod.fst).Nodup →
    (∀ kvA ∈ acc, ∀ kvS ∈ store, kvA.1 ≠ kvS.1) →
    store.foldl (fun a kv => kvSet a kv.1 kv.2) acc = acc ++ store := by
  induction store with
  | nil => intro acc _ _; simp
  | cons kv rest ih =>
    intro acc hnd hdisj
    simp only [List.foldl_cons]
    rw [kvSet_not_mem_append acc kv.1 kv.2
      (fun kvA hA => hdisj kvA hA kv (List.mem_cons_self _ _))]
    have hnd' : (rest.map Prod.fst).Nodup := by
      rw [List.map_cons] at hnd
      exact hnd.of_cons
    have hhead : kv.1 ∉ rest.map Prod.fst := by
      rw [List.map_cons] at hnd
      exact (List.nodup_cons.mp hnd).1
    have hdisj' : ∀ kvA ∈ acc ++ [(kv.1, kv.2)], ∀ kvS ∈ rest, kvA.1 ≠ kvS.1 := by
      intro kvA hA kvS hS
      rcases List.mem_append.mp hA with h | h
      · exact hdisj kvA h kvS (List.mem_cons_of_mem _ hS)
      · have : kvA = (kv.1, kv.2) := by simpa using h
        rw [this]
        intro he
        exact hhead (he ▸ List.mem_map_of_mem Prod.fst hS)
    rw [ih (acc ++ [(kv.1, kv.2)]) hnd' hdisj']
    simp

/-- Round-trip of the key/value store model: loading a saved store recovers
it, provided keys are nonempty, contain no whitespace, `#`, `=` or newline,
and are pairwise distinct, and values contain no newline and do not end in
a continuation backslash. -/
theorem LoadFromString_SaveToString (store : List (String × String))
    (hk : ∀ kv ∈ store, kv.1.data ≠ [] ∧
      ∀ c ∈ kv.1.data, c.isWhitespace = false ∧ c ≠ '#' ∧ c ≠ '=' ∧ c ≠ '\n')
    (hv : ∀ kv ∈ store, ∀ c ∈ kv.2.data, c ≠ '\n')
    (hvb : ∀ kv ∈ store, kv.2.data.getLast? ≠ some '\\')
    (hnd : (store.map Prod.fst).Nodup) :
    LoadFromString (SaveToString store) = some store := by
  unfold LoadFromString SaveToString
  rw [show (⟨(store.map kvLine).flatten⟩ : String).data =
    (store.map kvLine).flatten from rfl]
  rw [splitPiecesAux_kvLines store
    (fun kv h c hc => ((hk kv h).2 c hc).2.2.2) hv]
  rw [loadLinesAux_kvLines store []
    (fun kv h => ⟨(hk kv h).1, fun c hc => ⟨((hk kv h).2 c hc).1,
      ((hk kv h).2 c hc).2.1, ((hk kv h).2 c hc).2.2.1⟩, hvb kv h⟩)]
  rw [foldl_kvSet_append store [] hnd (by simp)]
  simp

/-- The store built by `UpdateEngineStatusToString`, spelled out: the eight
source `Set` calls insert eight distinct keys in source order. -/
theorem statusKeyValueStore_eq (st : UpdateEngineStatus) :
    statusKeyValueStore st =
      [(kLastCheckedTime, encodeInt st.last_checked_time),
       (kProgress, st.progress),
       (kNewSize, encodeNat st.new_size_bytes),
       (kCurrentOp, UpdateStatusToString st.status),
       (kNewVersion, st.new_version),
       (kIsEnterpriseRollback, if st.is_enterprise_rollback then "true" else "false"),
       (kIsInstall, if st.is_install then "true" else "false"),
       (kWillPowerwashAfterReboot,
         if st.will_powerwash_after_reboot then "true" else "false")] := rfl

/-- Status strings contain no newline. -/
theorem UpdateStatusToString_no_newline (s : UpdateStatus) :
    ∀ c ∈ (UpdateStatusToString s).data, c ≠ '\n' := by
  cases s <;> decide

/-- Parsing inverts `UpdateStatusToString`. -/
theorem stringToUpdateStatus_leftInv (s : UpdateStatus) :
    stringToUpdateStatus (UpdateStatusToString s) = some s := by
  cases s <;> rfl

/-- Parsing inverts the boolean rendering of `SetBoolean`. -/
theorem decodeBool_encode (b : Bool) :
    decodeBool (if b then "true" else "false") = some b := by
  cases b <;> rfl

/-- Values written by the status serializer contain no newline, given that
the version and progress renderings contain none. -/
theorem statusKeyValueStore_values_no_newline (st : UpdateEngineStatus)
    (hnv : ∀ c ∈ st.new_version.data, c ≠ '\n')
    (hpr : ∀ c ∈ st.progress.data, c ≠ '\n') :
    ∀ kv ∈ statusKeyValueStore st, ∀ c ∈ kv.2.data, c ≠ '\n' := by
  rw [statusKeyValueStore_eq]
  intro kv hkv
  simp only [List.mem_cons, List.not_mem_nil, or_false] at hkv
  rcases hkv with h|h|h|h|h|h|h|h <;> subst h
  · intro c hc
    rcases encodeInt_chars _ c hc with h | h
    · rw [h]; decide
    · exact (digit_char_benign c h.1 h.2).1
  · exact hpr
  · intro c hc
    have hr := encodeNat_chars _ c hc
    exact (digit_char_benign c hr.1 hr.2).1
  · exact UpdateStatusToString_no_newline st.status
  · exact hnv
  · cases st.is_enterprise_rollback <;> decide
  · cases st.is_install <;> decide
  · cases st.will_powerwash_after_reboot <;> decide

/-- Auxiliary packaging of key wellformedness for a literal pair. -/
theorem pair_key_wf (k v : String) (h1 : k.data ≠ [])
    (h2 : ∀ c ∈ k.data, c.isWhitespace = false ∧ c ≠ '#' ∧ c ≠ '=' ∧ c ≠ '\n') :
    (k, v).1.data ≠ [] ∧
      ∀ c ∈ (k, v).1.data,
        c.isWhitespace = false ∧ c ≠ '#' ∧ c ≠ '=' ∧ c ≠ '\n' :=
  ⟨h1, h2⟩

/-- Keys written by the status serializer are well formed for reloading. -/
theorem statusKeyValueStore_keys_wf (st : UpdateEngineStatus) :
    ∀ kv ∈ statusKeyValueStore st, kv.1.data ≠ [] ∧
      ∀ c ∈ kv.1.data, c.isWhitespace = false ∧ c ≠ '#' ∧ c ≠ '=' ∧ c ≠ '\n' := by
  rw [statusKeyValueStore_eq]
  intro kv hkv
  simp only [List.mem_cons, List.not_mem_nil, or_false] at hkv
  rcases hkv with h|h|h|h|h|h|h|h <;> subst h <;>
    exact pair_key_wf _ _ (by decide) (by decide)

/-- Keys written by the status serializer are pairwise distinct. -/
theorem statusKeyValueStore_keys_nodup (st : UpdateEngineStatus) :
    ((statusKeyValueStore st).map Prod.fst).Nodup := by
  have hmap : (statusKeyValueStore st).map Prod.fst =
      [kLastCheckedTime, kProgress, kNewSize, kCurrentOp, kNewVersion,
       kIsEnterpriseRollback, kIsInstall, kWillPowerwashAfterReboot] := rfl
  rw [hmap]
  decide

/-- A list whose members all differ from `x` does not end in `x`. -/
theorem getLast?_ne_of_all (l : List Char) (x : Char)
    (h : ∀ c ∈ l, c ≠ x) : l.getLast? ≠ some x := by
  induction l with
  | nil => simp
  | cons a as ih =>
    cases as with
    | nil =>
      intro hx
      have : a = x := by simpa using hx
      exact h a (List.mem_cons_self _ _) this
    | cons b bs =>
      rw [List.getLast?_cons_cons]
      exact ih (fun c hc => h c (List.mem_cons_of_mem _ hc))

/-- A character in the decimal digit range is not a backslash. -/
theorem digit_char_ne_bslash (c : Char) (_h1 : '0' ≤ c) (h2 : c ≤ '9') :
    c ≠ '\\' := by
  intro he
  rw [he] at h2
  exact absurd h2 (by decide)

/-- Status strings do not end in a backslash. -/
theorem UpdateStatusToString_ne_bslash (s : UpdateStatus) :
    (UpdateStatusToString s).data.getLast? ≠ some '\\' := by
  cases s <;> decide

/-- Values written by the status serializer do not end in a continuation
backslash, given that the version and progress renderings do not. -/
theorem statusKeyValueStore_values_no_bslash (st : UpdateEngineStatus)
    (hnv : st.new_version.data.getLast? ≠ some '\\')
    (hpr : st.progress.data.getLast? ≠ some '\\') :
    ∀ kv ∈ statusKeyValueStore st, kv.2.data.getLast? ≠ some '\\' := by
  rw [statusKeyValueStore_eq]
  intro kv hkv
  simp only [List.mem_cons, List.not_mem_nil, or_false] at hkv
  rcases hkv with h|h|h|h|h|h|h|h <;> subst h
  · refine getLast?_ne_of_all _ _ (fun c hc => ?_)
    rcases encodeInt_chars _ c hc with h | h
    · rw [h]; decide
    · exact digit_char_ne_bslash c h.1 h.2
  · exact hpr
  · refine getLast?_ne_of_all _ _ (fun c hc => ?_)
    have hr := encodeNat_chars _ c hc
    exact digit_char_ne_bslash c hr.1 hr.2
  · exact UpdateStatusToString_ne_bslash st.status
  · exact hnv
  · cases st.is_enterprise_rollback <;> decide
  · cases st.is_install <;> decide
  · cases st.will_powerwash_after_reboot <;> decide

/-- Loading the serialized status blob recovers the serializer store. -/
theorem LoadFromString_status (st : UpdateEngineStatus)
    (hnv : ∀ c ∈ st.new_version.data, c ≠ '\n')
    (hpr : ∀ c ∈ st.progress.data, c ≠ '\n')
    (hnvb : st.new_version.data.getLast? ≠ some '\\')
    (hprb : st.progress.data.getLast? ≠ some '\\') :
    LoadFromString (UpdateEngineStatusToString st) =
      some (statusKeyValueStore st) := by
  unfold UpdateEngineStatusToString
  exact LoadFromString_SaveToString _ (statusKeyValueStore_keys_wf st)
    (statusKeyValueStore_values_no_newline st hnv hpr)
    (statusKeyValueStore_values_no_bslash st hnvb hprb)
    (statusKeyValueStore_keys_nodup st)

/-- C3 (amended): serializing an `UpdateEngineStatus` with
`UpdateEngineStatusToString` and parsing the resulting key/value blob
recovers every field, provided `new_version` (and the `progress` rendering,
for which both conditions always hold of a formatted double) contains no
newline character and does not end in a backslash — an unescaped newline
splits the value across lines, and a trailing backslash is a
`KeyValueStore` line continuation that swallows the following line. -/
theorem updateEngineStatus_roundtrip (st : UpdateEngineStatus)
    (hnv : ∀ c ∈ st.new_version.data, c ≠ '\n')
    (hpr : ∀ c ∈ st.progress.data, c ≠ '\n')
    (hnvb : st.new_version.data.getLast? ≠ some '\\')
    (hprb : st.progress.data.getLast? ≠ some '\\') :
    parseUpdateEngineStatus (UpdateEngineStatusToString st) = some st := by
  have hload := LoadFromString_status st hnv hpr hnvb hprb
  have g1 : kvGet (statusKeyValueStore st) kLastCheckedTime =
      some (encodeInt st.last_checked_time) := rfl
  have g2 : kvGet (statusKeyValueStore st) kProgress = some st.progress := rfl
  have g3 : kvGet (statusKeyValueStore st) kNewSize =
      some (encodeNat st.new_size_bytes) := rfl
  have g4 : kvGet (statusKeyValueStore st) kCurrentOp =
      some (UpdateStatusToString st.status) := rfl
  have g5 : kvGet (statusKeyValueStore st) kNewVersion =
      some st.new_version := rfl
  have g6 : kvGet (statusKeyValueStore st) kIsEnterpriseRollback =
      some (if st.is_enterprise_rollback then "true" else "false") := rfl
  have g7 : kvGet (statusKeyValueStore st) kIsInstall =
      some (if st.is_install then "true" else "false") := rfl
  have g8 : kvGet (statusKeyValueStore st) kWillPowerwashAfterReboot =
      some (if st.will_powerwash_after_reboot then "true" else "false") := rfl
  unfold parseUpdateEngineStatus
  rw [hload]
  simp only [g1, g2, g3, g4, g5, g6, g7, g8, decodeInt_encodeInt,
    decodeNat_encodeNat, stringToUpdateStatus_leftInv, decodeBool_encode]

/-- C3 (counterexample): for a status whose `new_version` contains a
newline, the serialized blob does not parse back: the line after the
embedded newline has no `=`, so loading fails.  This refutes the claim as
stated for every status value. -/
theorem updateEngineStatus_roundtrip_cex :
    parseUpdateEngineStatus (UpdateEngineStatusToString
      { last_checked_time := 0, progress := "0", new_size_bytes := 0,
        status := .IDLE, new_version := "1\n2", is_enterprise_rollback := false,
        is_install := false, will_powerwash_after_reboot := false }) ≠
      some
        { last_checked_time := 0, progress := "0", new_size_bytes := 0,
          status := .IDLE, new_version := "1\n2",
          is_enterprise_rollback := false, is_install := false,
          will_powerwash_after_reboot := false } := by
  decide

/-- C3 (witness): the amended round-trip evaluated at a concrete status. -/
theorem updateEngineStatus_roundtrip_witness :
    parseUpdateEngineStatus (UpdateEngineStatusToString
      { last_checked_time := -42, progress := "0.25", new_size_bytes := 1024,
        status := .DOWNLOADING, new_version := "14.1.0",
        is_enterprise_rollback := false, is_install := true,
        will_powerwash_after_reboot := false }) =
      some
        { last_checked_time := -42, progress := "0.25",
          new_size_bytes := 1024, status := .DOWNLOADING,
          new_version := "14.1.0", is_enterprise_rollback := false,
          is_install := true, will_powerwash_after_reboot := false } :=
  updateEngineStatus_roundtrip _ (by decide) (by decide) (by decide) (by decide)

/-- C1: the terminal callback `onPayloadApplicationComplete` makes the
client exit with code 0 exactly when the delivered error code is
`kSuccess` (0) or `UpdatedButNotActive` (52); for every other code the exit
code is 1. -/
theorem onPayloadApplicationComplete_exit (error_code : Nat) :
    (onPayloadApplicationCompleteExitCode error_code = 0 ↔
      (error_code = 0 ∨ error_code = 52)) ∧
    (onPayloadApplicationCompleteExitCode error_code = 0 ∨
      onPayloadApplicationCompleteExitCode error_code = 1) := by
  unfold onPayloadApplicationCompleteExitCode EX_OK
  by_cases h : error_code = 0 ∨ error_code = 52
  · rw [if_pos h]
    exact ⟨⟨fun _ => h, fun _ => rfl⟩, Or.inl rfl⟩
  · rw [if_neg h]
    exact ⟨⟨fun h1 => absurd h1 (by decide), fun h2 => absurd h2 h⟩, Or.inr rfl⟩

/-- C2: after a restart with the completed marker present, an active slot
equal to the target of the last attempt is reported as
`UPDATED_NEED_REBOOT`, while an active slot still equal to the old source
slot is reported `IDLE` and classified `ROLLED_BACK`. -/
theorem getOTAUpdateResult_restart (active target source : Nat)
    (hs : source ≠ target) :
    (active = target →
      reportedStatusAfterRestart true active target =
        UpdateStatus.UPDATED_NEED_REBOOT) ∧
    (active = source →
      reportedStatusAfterRestart true active target = UpdateStatus.IDLE ∧
      GetOTAUpdateResult true active target source = OTAResult.ROLLED_BACK) := by
  constructor
  · intro ha
    unfold reportedStatusAfterRestart
    rw [if_pos ⟨rfl, ha⟩]
  · intro ha
    have hne : active ≠ target := fun h => hs (ha ▸ h)
    constructor
    · unfold reportedStatusAfterRestart
      rw [if_neg (fun hcon => hne hcon.2)]
    · unfold GetOTAUpdateResult
      rw [if_neg (fun hcon => hcon rfl), if_neg hne, if_pos ha]

/-- C2 (witness): concrete restart with active slot 0, target 1, source 0. -/
theorem getOTAUpdateResult_restart_witness :
    reportedStatusAfterRestart true 0 1 = UpdateStatus.IDLE ∧
    GetOTAUpdateResult true 0 1 0 = OTAResult.ROLLED_BACK :=
  (getOTAUpdateResult_restart 0 1 0 (by decide)).2 rfl

/-- C4: the serialized status store carries exactly the keys
`LAST_CHECKED_TIME, PROGRESS, NEW_SIZE, CURRENT_OP, NEW_VERSION,
IS_ENTERPRISE_ROLLBACK, IS_INSTALL, WILL_POWERWASH_AFTER_REBOOT`, and for
every FSM state the `CURRENT_OP` value is the corresponding literal
status string. -/
theorem statusBlob_keys_and_literals (st : UpdateEngineStatus) :
    (statusKeyValueStore st).map Prod.fst =
      [kLastCheckedTime, kProgress, kNewSize, kCurrentOp, kNewVersion,
       kIsEnterpriseRollback, kIsInstall, kWillPowerwashAfterReboot] ∧
    kvGet (statusKeyValueStore st) kCurrentOp =
      some (UpdateStatusToString st.status) ∧
    UpdateStatusToString .IDLE = "UPDATE_STATUS_IDLE" ∧
    UpdateStatusToString .CHECKING_FOR_UPDATE =
      "UPDATE_STATUS_CHECKING_FOR_UPDATE" ∧
    UpdateStatusToString .UPDATE_AVAILABLE = "UPDATE_STATUS_UPDATE_AVAILABLE" ∧
    UpdateStatusToString .NEED_PERMISSION_TO_UPDATE =
      "UPDATE_STATUS_NEED_PERMISSION_TO_UPDATE" ∧
    UpdateStatusToString .DOWNLOADING = "UPDATE_STATUS_DOWNLOADING" ∧
    UpdateStatusToString .VERIFYING = "UPDATE_STATUS_VERIFYING" ∧
    UpdateStatusToString .FINALIZING = "UPDATE_STATUS_FINALIZING" ∧
    UpdateStatusToString .UPDATED_NEED_REBOOT =
      "UPDATE_STATUS_UPDATED_NEED_REBOOT" ∧
    UpdateStatusToString .REPORTING_ERROR_EVENT =
      "UPDATE_STATUS_REPORTING_ERROR_EVENT" ∧
    UpdateStatusToString .ATTEMPTING_ROLLBACK =
      "UPDATE_STATUS_ATTEMPTING_ROLLBACK" ∧
    UpdateStatusToString .DISABLED = "UPDATE_STATUS_DISABLED" ∧
    UpdateStatusToString .CLEANUP_PREVIOUS_UPDATE =
      "UPDATE_STATUS_CLEANUP_PREVIOUS_UPDATE" :=
  ⟨rfl, rfl, rfl, rfl, rfl, rfl, rfl, rfl, rfl, rfl, rfl, rfl, rfl, rfl⟩

/-- C5: a freshly constructed `InstallPlan` defaults
`switch_slot_on_reboot`, `run_post_install` and `write_verity` to true, and
`hash_checks_mandatory`, `powerwash_required`, `spl_downgrade` and
`batched_writes` to false. -/
theorem installPlan_defaults :
    ({} : InstallPlan).switch_slot_on_reboot = true ∧
    ({} : InstallPlan).run_post_install = true ∧
    ({} : InstallPlan).write_verity = true ∧
    ({} : InstallPlan).hash_checks_mandatory = false ∧
    ({} : InstallPlan).powerwash_required = false ∧
    ({} : InstallPlan).spl_downgrade = false ∧
    ({} : InstallPlan).batched_writes = false :=
  ⟨rfl, rfl, rfl, rfl, rfl, rfl, rfl⟩

/-- C7: in state `IDLE`, `AllocateSpaceForPayload` returns 0 when the free
space covers the requirement, and otherwise the positive byte shortfall
(the amount by which free space misses the requirement). -/
theorem allocateSpaceForPayload_spec (requiredBytes freeBytes : Nat) :
    (requiredBytes ≤ freeBytes →
      AllocateSpaceForPayload UpdateStatus.IDLE requiredBytes freeBytes =
        some 0) ∧
    (freeBytes < requiredBytes →
      AllocateSpaceForPayload UpdateStatus.IDLE requiredBytes freeBytes =
        some (requiredBytes - freeBytes) ∧
      requiredBytes - freeBytes ≠ 0 ∧
      freeBytes + (requiredBytes - freeBytes) = requiredBytes) := by
  constructor
  · intro h
    unfold AllocateSpaceForPayload
    rw [if_pos rfl]
    congr 1
    omega
  · intro h
    unfold AllocateSpaceForPayload
    rw [if_pos rfl]
    exact ⟨rfl, by omega, by omega⟩

/-- C7 (witness): allocation with enough space returns 0; with a 6-byte
shortfall it returns 6. -/
theorem allocateSpaceForPayload_witness :
    AllocateSpaceForPayload UpdateStatus.IDLE 5 10 = some 0 ∧
    AllocateSpaceForPayload UpdateStatus.IDLE 10 4 = some (10 - 4) :=
  ⟨(allocateSpaceForPayload_spec 5 10).1 (by decide),
    ((allocateSpaceForPayload_spec 10 4).2 (by decide)).1⟩

/-- C8 (counterexample): the no-flag invocation (`argc == 1`), a usage
error, exits with code 1, which is neither `EX_OK` nor in the `sysexits.h`
usage-error range 64..78 — refuting the claim that usage errors exit with
system `EX_*` codes. -/
theorem cliUsageError_exit_cex :
    onInitArgCheck 1 [] = some 1 ∧ (1 : Nat) ≠ EX_OK ∧
      ¬ (64 ≤ (1 : Nat) ∧ (1 : Nat) ≤ 78) := by
  decide

/-- C8 (amended): the CLI exits 0 on success or terminal success and 1 on
generic failure; usage errors (no flags at all, or a positional argument)
also exit with code 1 rather than an `EX_*` code, and a failed service call
exits with the binder exception code. -/
theorem cli_exit_codes (argc exc : Nat) (ps : List String) (hps : ps ≠ []) :
    onInitArgCheck 1 ps = some 1 ∧
    onInitArgCheck argc ps = some 1 ∧
    ExitWhenIdleStatus true exc = EX_OK ∧
    ExitWhenIdleStatus false exc = exc ∧
    (∀ c, onPayloadApplicationCompleteExitCode c = EX_OK ∨
      onPayloadApplicationCompleteExitCode c = 1) := by
  refine ⟨?_, ?_, rfl, rfl, ?_⟩
  · unfold onInitArgCheck
    rw [if_pos rfl]
  · unfold onInitArgCheck
    by_cases h1 : argc = 1
    · rw [if_pos h1]
    · rw [if_neg h1, if_pos hps]
  · intro c
    unfold onPayloadApplicationCompleteExitCode
    by_cases h : c = 0 ∨ c = 52
    · rw [if_pos h]; exact Or.inl rfl
    · rw [if_neg h]; exact Or.inr rfl

/-- C8 (witness): the amended exit-code statement at concrete inputs. -/
theorem cli_exit_codes_witness :
    onInitArgCheck 1 ["x"] = some 1 ∧
    onInitArgCheck 3 ["x"] = some 1 ∧
    ExitWhenIdleStatus true 7 = EX_OK ∧
    ExitWhenIdleStatus false 7 = 7 ∧
    (∀ c, onPayloadApplicationCompleteExitCode c = EX_OK ∨
      onPayloadApplicationCompleteExitCode c = 1) :=
  cli_exit_codes 3 7 ["x"] (by decide)

/-- C9: the `InstallPlan` source action posts its stored plan unchanged to
the output pipe when one is attached, posts nothing otherwise, and always
completes with `ErrorCode::kSuccess`. -/
theorem installPlanAction_performAction (plan : InstallPlan) :
    InstallPlanAction.PerformAction true plan = (some plan, ErrorCode.kSuccess) ∧
    InstallPlanAction.PerformAction false plan = (none, ErrorCode.kSuccess) :=
  ⟨rfl, rfl⟩

/-- C6: the delivered notification sequence is computed only from the
monotonic clock readings: two runs whose samples agree on monotonic time,
progress and state changes — differing arbitrarily in wall-clock
readings — deliver identical notification sequences. -/
theorem runNotifications_wall_independent (threshold delta : Nat) :
    ∀ (xs ys : List StatusSample) (lastNotify lastProgress : Nat),
    xs.map StatusSample.strip = ys.map StatusSample.strip →
    runNotifications threshold delta lastNotify lastProgress xs =
      runNotifications threshold delta lastNotify lastProgress ys := by
  intro xs
  induction xs with
  | nil =>
    intro ys _ _ h
    cases ys with
    | nil => rfl
    | cons y ys => simp at h
  | cons x xs ih =>
    intro ys lastNotify lastProgress h
    cases ys with
    | nil => simp at h
    | cons y ys =>
      simp only [List.map_cons, List.cons.injEq] at h
      obtain ⟨hxy, hrest⟩ := h
      have h1 : x.mono = y.mono := congrArg Prod.fst hxy
      have h2 : x.progress = y.progress := congrArg (fun p => p.2.1) hxy
      have h3 : x.stateChange = y.stateChange := congrArg (fun p => p.2.2) hxy
      simp only [runNotifications, throttleStep, h1, h2, h3]
      by_cases hc : (y.stateChange ||
          (decide (threshold ≤ y.mono - lastNotify) &&
            decide (delta ≤ y.progress - lastProgress))) = true
      · rw [if_pos hc, if_pos hc, ih ys y.mono y.progress hrest]
      · rw [if_neg hc, if_neg hc]
        exact ih ys lastNotify lastProgress hrest

/-- C6 (witness): two concrete two-sample runs, one of which sets the wall
clock back mid-update, deliver the same notifications. -/
theorem runNotifications_wall_independent_witness :
    runNotifications 200 1 0 0
        [⟨250, 1000, 10, false⟩, ⟨300, -5000, 20, true⟩] =
      runNotifications 200 1 0 0
        [⟨250, 99999, 10, false⟩, ⟨300, 0, 20, true⟩] :=
  runNotifications_wall_independent 200 1 _ _ 0 0 (by decide)

/-- C10: `ParseHeaders` splits its argument on newline characters only,
silently drops empty lines, and passes every remaining line through
verbatim (whitespace, order and malformed non-`KEY=VALUE` lines
included): it equals filtering the newline-split of the argument. -/
theorem parseHeaders_characterization (arg : String) :
    ParseHeaders arg =
      ((arg.data.splitOn '\n').filter (fun l => !l.isEmpty)).map
        (fun l => String.mk l) := by
  unfold ParseHeaders SplitString
  rw [splitPiecesAux_eq_splitOnP]
  simp [List.splitOn]

/-- Demonstration of the modelled `KeyValueStore` line continuation: a value
ending in a backslash absorbs the following raw line, as in the C++ loader. -/
theorem loadFromString_backslash_joins_lines :
    LoadFromString "A=x\\\nB=y\n" = some [("A", "xB=y")] := by
  decide

/-- Demonstration that the line continuation defeats the status round-trip:
a `new_version` ending in a backslash (and containing no newline) makes the
loader swallow the following `IS_ENTERPRISE_ROLLBACK` line, so parsing the
blob fails — which is why the amended round-trip excludes trailing
backslashes. -/
theorem updateEngineStatus_backslash_not_recovered :
    parseUpdateEngineStatus (UpdateEngineStatusToString
      { last_checked_time := 0, progress := "0", new_size_bytes := 0,
        status := .IDLE, new_version := "x\\", is_enterprise_rollback := false,
        is_install := false, will_powerwash_after_reboot := false }) =
      none := by
  decide
